import Mathlib

/-!
Shallow embedding of the `RealTimeServer` class (a live-reload HTTP +
WebSocket static file server) and proofs about the behaviour its
specification claims.  The embedding translates the TypeScript source:
path handling mirrors Node's POSIX `path.join` / `path.extname`, the
filesystem is an explicit finite map from absolute path strings to file
contents (regular files only), and the lifecycle methods become pure
state transformers.
-/

namespace RealTime

/-- Split a character list at every occurrence of `sep`; the groups keep
their order and do not contain `sep`.  This is the segment decomposition
underlying Node's POSIX path handling. -/
def splitOnChar (sep : Char) : List Char → List (List Char)
  | [] => [[]]
  | c :: cs =>
    if c = sep then [] :: splitOnChar sep cs
    else
      match splitOnChar sep cs with
      | [] => [[c]]
      | g :: gs => (c :: g) :: gs

/-- Path-separator segments of a path string. -/
def splitSegs (s : String) : List String :=
  (splitOnChar '/' s.toList).map String.mk

/-- Normalisation step of Node's `path.join` for an absolute POSIX path:
empty segments and `.` are dropped, `..` pops the previous segment (and is
dropped at the filesystem root).  The accumulator holds the already
processed segments in reverse order. -/
def normSegs : List String → List String → List String
  | acc, [] => acc.reverse
  | acc, seg :: rest =>
    if seg = "" ∨ seg = "." then normSegs acc rest
    else if seg = ".." then normSegs acc.tail rest
    else normSegs (seg :: acc) rest

/-- Join segments back with the path separator. -/
def joinSegs : List String → String
  | [] => ""
  | [s] => s
  | s :: rest => s ++ "/" ++ joinSegs rest

/-- Render an absolute path from its normalised segments. -/
def renderAbs (segs : List String) : String :=
  "/" ++ joinSegs segs

/-- Embedding of Node's `path.join(a, b)` for an absolute first argument
`a`: the two parts are concatenated and the result normalised.  (Node
keeps a single trailing separator; the claims only concern slash-free
file names, for which the two agree.) -/
def pathJoin (a b : String) : String :=
  renderAbs (normSegs [] (splitSegs a ++ splitSegs b))

/-- Embedding of JavaScript's `String.prototype.startsWith`:
`strStartsWith s pre` holds when `pre` is a prefix of the character
sequence of `s`. -/
def strStartsWith (s pre : String) : Bool :=
  pre.toList.isPrefixOf s.toList

/-- ASCII lower-casing of one character (what `toLowerCase` does on the
ASCII extensions compared here). -/
def charToLower (c : Char) : Char :=
  if 'A' ≤ c ∧ c ≤ 'Z' then Char.ofNat (c.toNat + 32) else c

/-- Embedding of `String.prototype.toLowerCase` restricted to ASCII. -/
def lowerStr (s : String) : String :=
  String.mk (s.toList.map charToLower)

/-- Extension of a basename, following Node's `path.extname`: the suffix
from the last dot on, empty when there is no dot or the only dot is the
leading character of the basename. -/
def extChars (cs : List Char) : List Char :=
  let rev := cs.reverse
  let after := rev.takeWhile (fun c => ¬ c = '.')
  match rev.drop after.length with
  | [] => []
  | [_] => []
  | _ :: _ :: _ => '.' :: after.reverse

/-- Characters of the final path component. -/
def basenameChars (p : String) : List Char :=
  (splitOnChar '/' p.toList).getLastD []

/-- Embedding of Node's `path.extname`. -/
def extname (p : String) : String :=
  String.mk (extChars (basenameChars p))

/-- First occurrence split: `splitFirst pat l = some (pre, post)` when
`l = pre ++ pat ++ post` with `pre` as short as possible, `none` when
`pat` does not occur in `l`. -/
def splitFirst (pat : List Char) : List Char → Option (List Char × List Char)
  | [] => if pat = [] then some ([], []) else none
  | c :: cs =>
    if pat.isPrefixOf (c :: cs) then some ([], (c :: cs).drop pat.length)
    else
      match splitFirst pat cs with
      | some (pre, post) => some (c :: pre, post)
      | none => none

/-- Embedding of JavaScript's `String.prototype.replace` with a plain
string pattern (no `$`-patterns in the replacement): the first occurrence
of `pat` is replaced by `repl`; a string without an occurrence is
returned unchanged. -/
def replaceFirst (s pat repl : String) : String :=
  match splitFirst pat.toList s.toList with
  | none => s
  | some (pre, post) => String.mk (pre ++ repl.toList ++ post)

/-- Substring occurrence test. -/
def containsSubstr (s pat : String) : Bool :=
  (splitFirst pat.toList s.toList).isSome

/-- Modelled from the `mime` package dependency (its `getType` lookup,
case-insensitive in the extension): the content types of the extensions
relevant to this development; other extensions yield `none` and the
server then falls back to a default. -/
def mimeGetType (p : String) : Option String :=
  let e := lowerStr (extname p)
  if e = ".html" ∨ e = ".htm" then some "text/html"
  else if e = ".js" then some "application/javascript"
  else if e = ".css" then some "text/css"
  else if e = ".json" then some "application/json"
  else none

/-- The client bootstrap script returned by
`RealTimeServer.getWebSocketClientScript`, with the server's `port`
field interpolated into the WebSocket URL. -/
def wsClientScript (port : Nat) : String :=
  "\n<script>\n(function() \x7b\n    const ws = new WebSocket(\x27ws://localhost:"
    ++ toString port ++
    "\x27);\n    ws.onmessage = function(event) \x7b\n        if (event.data === \x27reload\x27) \x7b\n            location.reload();\n        \x7d\n    \x7d;\n    ws.onopen = function() \x7b\n        console.log(\x27Real-time reload connected\x27);\n    \x7d;\n    ws.onclose = function() \x7b\n        console.log(\x27Real-time reload disconnected\x27);\n    \x7d;\n\x7d)();\n</script>"

/-- The filesystem visible to the server, as a finite map from absolute
path strings (in normalised form) to the contents of the regular file
stored there.  Directories and other node kinds are not modelled: the
claims only concern regular files under the served root. -/
def FS : Type := List (String × String)

/-- Embedding of `fs.readFile` (successful case): content of the file at
path `p`, if one exists. -/
def fsLookup (fs : FS) (p : String) : Option String :=
  match List.find? (fun e => e.1 = p) fs with
  | some e => some e.2
  | none => none

/-- Embedding of `fs.existsSync` on the modelled filesystem. -/
def existsSync (fs : FS) (p : String) : Bool :=
  (fsLookup fs p).isSome

/-- An HTTP response as produced by `handleRequest`: status code, the
`Content-Type` header value, and the body. -/
structure Response where
  status : Nat
  contentType : String
  body : String
deriving DecidableEq

/-- The file-serving tail of `RealTimeServer.handleRequest`: read the
file (500 on a read failure), then either inject the client bootstrap
script before the closing body tag — when the path's lower-cased
extension is `.html` — or return the data unmodified, in both cases with
status 200 and the mime-derived content type. -/
def serveFile (port : Nat) (filePath : String) (fs : FS) : Response :=
  match fsLookup fs filePath with
  | none => ⟨500, "text/plain", "Internal server error"⟩
  | some data =>
    if lowerStr (extname filePath) = ".html" then
      let contentType := (mimeGetType filePath).getD "text/html"
      let injectedScript := wsClientScript port
      ⟨200, contentType, replaceFirst data "</body>" (injectedScript ++ "</body>")⟩
    else
      let contentType := (mimeGetType filePath).getD "application/octet-stream"
      ⟨200, contentType, data⟩

/-- The path the request URL resolves to:
`path.join(this.rootPath, req.url === '/' ? this.entryFile : req.url)`. -/
def resolvedPath (rootPath entryFile url : String) : String :=
  pathJoin rootPath (if url = "/" then entryFile else url)

/-- Embedding of `RealTimeServer.handleRequest`: resolve the URL against
the root, reject with 403 when the resolved path does not start with the
root path string, fall back to `index.html` at the root when the
resolved file does not exist, 404 when the fallback does not exist
either, and otherwise serve the chosen file. -/
def handleRequest (rootPath entryFile : String) (port : Nat) (fs : FS)
    (url : String) : Response :=
  let filePath := resolvedPath rootPath entryFile url
  if ! strStartsWith filePath rootPath then
    ⟨403, "text/plain", "Forbidden"⟩
  else if existsSync fs filePath then
    serveFile port filePath fs
  else
    let fallbackPath := pathJoin rootPath "index.html"
    if existsSync fs fallbackPath then
      serveFile port fallbackPath fs
    else
      ⟨404, "text/plain", "File not found"⟩

/-- Connection states of a WebSocket, as in the `ws` dependency's
`readyState` constants. -/
inductive ReadyState where
  | CONNECTING
  | OPEN
  | CLOSING
  | CLOSED
deriving DecidableEq

/-- One client connection of the reload channel.  `sent` counts the
reload signals handed to the transport for this connection and `errors`
the delivery attempts its transport failed; `sendErr` models whether the
transport would fail the next delivery (`ws` sends are fire-and-forget:
a failure surfaces on that socket's error event and cannot abort the
caller). -/
structure Client where
  readyState : ReadyState
  sent : Nat
  sendErr : Bool
  errors : Nat
deriving DecidableEq

/-- The body of the `broadcastReload` loop for one connection: a reload
signal is sent iff the connection's `readyState` is `OPEN`; on a failing
transport the attempt is recorded as an error of that connection alone. -/
def sendReload (c : Client) : Client :=
  if c.readyState = ReadyState.OPEN then
    if c.sendErr then { c with errors := c.errors + 1 }
    else { c with sent := c.sent + 1 }
  else c

/-- Embedding of `RealTimeServer.broadcastReload`: the send-if-open step
applied to each tracked connection independently. -/
def broadcastReload (cs : List Client) : List Client :=
  cs.map sendReload

/-- The mutable state of a `RealTimeServer` instance.  The `server`,
`wss` and `watcher` flags record whether the corresponding resource
(HTTP server, WebSocket server, chokidar watcher) is currently
allocated, i.e. whether the field is non-null. -/
structure ServerState where
  rootPath : String
  port : Nat
  entryFile : String
  server : Bool
  wss : Bool
  watcher : Bool
  clients : List Client
  isRunning : Bool
deriving DecidableEq

/-- The constructor `new RealTimeServer(rootPath, port, entryFile)`
(defaults: port 5500, entry file `index.html`). -/
def mkServer (rootPath : String) (port : Nat) (entryFile : String) : ServerState :=
  ⟨rootPath, port, entryFile, false, false, false, [], false⟩

/-- Failures `start` can reject with. -/
inductive StartError where
  | alreadyRunning
  | listenError (msg : String)
deriving DecidableEq

/-- Embedding of `RealTimeServer.start`.  `listenResult` models the
outcome of `server.listen(this.port, ...)`: `Except.ok actualPort` when
the operating system bound a port (equal to the preferred port unless
that was 0), `Except.error` on a bind failure.  The function returns the
resolved/rejected value together with the state of the instance after
the call; the source performs no cleanup of the already-created server,
WebSocket server or watcher on the rejection path (its catch clause only
logs and rethrows). -/
def start (s : ServerState) (listenResult : Except String Nat) :
    Except StartError Nat × ServerState :=
  if s.isRunning then
    (Except.error StartError.alreadyRunning, s)
  else
    let s1 := { s with server := true, wss := true, watcher := true }
    match listenResult with
    | Except.error e => (Except.error (StartError.listenError e), s1)
    | Except.ok actualPort => (Except.ok actualPort, { s1 with isRunning := true })

/-- Embedding of `RealTimeServer.stop`.  Returns the new instance state
together with the post-call states of the connections that were in the
client set: the source calls `watcher.close()`, `wss.close()`,
`server.close()` and `clients.clear()`; per the `ws` dependency's
semantics, `Server.close` stops accepting new connections but does not
terminate established client connections, and no `close`/`terminate` is
invoked on any individual client, so each connection's own state is
unchanged. -/
def stop (s : ServerState) : ServerState × List Client :=
  if ! s.isRunning then
    (s, s.clients)
  else
    ({ s with server := false, wss := false, watcher := false,
              clients := [], isRunning := false },
     s.clients)

/-- A connection in the open state with no recorded traffic. -/
def freshOpenClient : Client := ⟨ReadyState.OPEN, 0, false, 0⟩

/-- A running session on root `/r` with one open client connection, as
reached by a successful `start` followed by one accepted upgrade. -/
def runningSession : ServerState :=
  { mkServer "/r" 5500 "index.html" with
    server := true, wss := true, watcher := true,
    clients := [freshOpenClient], isRunning := true }

/-- The state of an instance between `start`'s creation of the HTTP
server, WebSocket server and watcher and the completion of the
asynchronous `listen` callback: resources allocated, `isRunning` not
yet set.  This is the `Starting` phase of the lifecycle. -/
def startingSession : ServerState :=
  { mkServer "/r" 5500 "index.html" with
    server := true, wss := true, watcher := true }

/-! Correctness of the first-occurrence split underlying `replaceFirst`. -/

/-- When `splitFirst` finds an occurrence, the returned parts decompose
the list around the pattern, and the prefix part is shortest possible:
the found occurrence is the first one. -/
theorem splitFirst_some (pat : List Char) :
    ∀ l pre post : List Char, splitFirst pat l = some (pre, post) →
      l = pre ++ pat ++ post ∧
      ∀ pre' post' : List Char, l = pre' ++ pat ++ post' →
        pre.length ≤ pre'.length := by
  intro l
  induction l with
  | nil =>
    intro pre post h
    rw [splitFirst] at h
    by_cases hp : pat = ([] : List Char)
    · rw [if_pos hp] at h
      obtain ⟨rfl, rfl⟩ := Prod.mk.injEq .. ▸ Option.some.injEq .. ▸ h
      subst hp
      exact ⟨rfl, fun pre' post' _ => Nat.zero_le _⟩
    · rw [if_neg hp] at h
      exact absurd h (by simp)
  | cons c cs ih =>
    intro pre post h
    rw [splitFirst] at h
    by_cases hp : pat.isPrefixOf (c :: cs)
    · rw [if_pos hp] at h
      have hpre : pat <+: (c :: cs) := List.isPrefixOf_iff_prefix.mp hp
      obtain ⟨t, ht⟩ := hpre
      obtain ⟨rfl, rfl⟩ := Prod.mk.injEq .. ▸ Option.some.injEq .. ▸ h
      refine ⟨?_, fun pre' post' _ => Nat.zero_le _⟩
      rw [← ht, List.nil_append, List.drop_left]
    · rw [if_neg hp] at h
      cases hrec : splitFirst pat cs with
      | none => rw [hrec] at h; exact absurd h (by simp)
      | some pq =>
        obtain ⟨p, q⟩ := pq
        rw [hrec] at h
        obtain ⟨rfl, rfl⟩ := Prod.mk.injEq .. ▸ Option.some.injEq .. ▸ h
        obtain ⟨hdec, hmin⟩ := ih p q hrec
        constructor
        · rw [List.cons_append, List.cons_append, ← hdec]
        · intro pre' post' heq
          cases pre' with
          | nil =>
            exfalso
            apply hp
            exact List.isPrefixOf_iff_prefix.mpr ⟨post', by simpa using heq.symm⟩
          | cons c' pre'' =>
            have hcs : cs = pre'' ++ pat ++ post' := by
              have := heq
              simp only [List.cons_append] at this
              exact (List.cons.injEq .. ▸ this).2
            simpa using Nat.succ_le_succ (hmin pre'' post' hcs)

/-- When `splitFirst` finds no occurrence, the pattern does not occur. -/
theorem splitFirst_none (pat : List Char) :
    ∀ l : List Char, splitFirst pat l = none →
      ∀ pre post : List Char, l ≠ pre ++ pat ++ post := by
  intro l
  induction l with
  | nil =>
    intro h pre post heq
    rw [splitFirst] at h
    by_cases hp : pat = ([] : List Char)
    · rw [if_pos hp] at h; exact absurd h (by simp)
    · cases pre with
      | nil => simp only [List.nil_append] at heq; exact hp (List.append_eq_nil.mp heq.symm).1
      | cons a as => exact absurd heq.symm (by simp)
  | cons c cs ih =>
    intro h pre post heq
    rw [splitFirst] at h
    by_cases hp : pat.isPrefixOf (c :: cs)
    · rw [if_pos hp] at h; exact absurd h (by simp)
    · rw [if_neg hp] at h
      cases pre with
      | nil =>
        exact hp (List.isPrefixOf_iff_prefix.mpr ⟨post, by simpa using heq.symm⟩)
      | cons c' pre' =>
        cases hrec : splitFirst pat cs with
        | none =>
          refine ih hrec pre' post ?_
          have := heq
          simp only [List.cons_append] at this
          exact (List.cons.injEq .. ▸ this).2
        | some pq => obtain ⟨p, q⟩ := pq; rw [hrec] at h; exact absurd h (by simp)

/-! Unfolding lemmas for the request handler. -/

/-- A request whose resolved path passes the prefix check and exists is
served from that path. -/
theorem handleRequest_eq_serve (rootPath entryFile : String) (port : Nat)
    (fs : FS) (url : String)
    (hpre : strStartsWith (resolvedPath rootPath entryFile url) rootPath = true)
    (hex : existsSync fs (resolvedPath rootPath entryFile url) = true) :
    handleRequest rootPath entryFile port fs url
      = serveFile port (resolvedPath rootPath entryFile url) fs := by
  simp [handleRequest, hpre, hex]

/-- A request whose resolved path passes the prefix check but does not
exist is served from the root's `index.html` when that exists. -/
theorem handleRequest_eq_fallback (rootPath entryFile : String) (port : Nat)
    (fs : FS) (url : String)
    (hpre : strStartsWith (resolvedPath rootPath entryFile url) rootPath = true)
    (hne : existsSync fs (resolvedPath rootPath entryFile url) = false)
    (hfb : existsSync fs (pathJoin rootPath "index.html") = true) :
    handleRequest rootPath entryFile port fs url
      = serveFile port (pathJoin rootPath "index.html") fs := by
  simp [handleRequest, hpre, hne, hfb]

/-- A request whose resolved path passes the prefix check, does not
exist, and has no existing `index.html` fallback is answered 404. -/
theorem handleRequest_eq_notFound (rootPath entryFile : String) (port : Nat)
    (fs : FS) (url : String)
    (hpre : strStartsWith (resolvedPath rootPath entryFile url) rootPath = true)
    (hne : existsSync fs (resolvedPath rootPath entryFile url) = false)
    (hfb : existsSync fs (pathJoin rootPath "index.html") = false) :
    handleRequest rootPath entryFile port fs url
      = ⟨404, "text/plain", "File not found"⟩ := by
  simp [handleRequest, hpre, hne, hfb]

/-- Serving an existing path with lower-cased extension `.html` injects
the bootstrap script before the first closing body tag and answers with
the HTML content type. -/
theorem serveFile_html (port : Nat) (fp : String) (fs : FS) (data : String)
    (hread : fsLookup fs fp = some data)
    (hext : lowerStr (extname fp) = ".html") :
    serveFile port fp fs
      = ⟨200, "text/html",
         replaceFirst data "</body>" (wsClientScript port ++ "</body>")⟩ := by
  simp [serveFile, hread, hext, mimeGetType]

/-- Serving an existing path whose lower-cased extension is not `.html`
returns the data unmodified with the mime-derived content type. -/
theorem serveFile_other (port : Nat) (fp : String) (fs : FS) (data : String)
    (hread : fsLookup fs fp = some data)
    (hext : ¬ lowerStr (extname fp) = ".html") :
    serveFile port fp fs
      = ⟨200, (mimeGetType fp).getD "application/octet-stream", data⟩ := by
  simp [serveFile, hread, hext]

/-- A path with a content readout exists. -/
theorem existsSync_of_fsLookup (fs : FS) (p : String) (data : String)
    (h : fsLookup fs p = some data) : existsSync fs p = true := by
  simp [existsSync, h]

/-! Lemmas about path segmentation, used to compute the extension of
the SPA fallback path for an arbitrary root. -/

/-- The segment decomposition is never empty. -/
theorem splitOnChar_ne_nil (sep : Char) (l : List Char) :
    splitOnChar sep l ≠ [] := by
  induction l with
  | nil => simp [splitOnChar]
  | cons c cs ih =>
    by_cases h : c = sep
    · simp [splitOnChar, h]
    · rw [splitOnChar, if_neg h]
      cases hs : splitOnChar sep cs <;> simp

/-- Splitting distributes over an explicit separator occurrence. -/
theorem splitOnChar_append (sep : Char) (xs ys : List Char) :
    splitOnChar sep (xs ++ sep :: ys)
      = splitOnChar sep xs ++ splitOnChar sep ys := by
  induction xs with
  | nil => simp [splitOnChar]
  | cons c cs ih =>
    by_cases h : c = sep
    · subst h
      simp [splitOnChar, List.append_eq, ih]
    · cases hcs : splitOnChar sep cs with
      | nil => exact absurd hcs (splitOnChar_ne_nil sep cs)
      | cons g gs =>
        simp [splitOnChar, h, List.append_eq, ih, hcs]

/-- A separator-free list splits into itself. -/
theorem splitOnChar_of_not_mem (sep : Char) (l : List Char)
    (h : sep ∉ l) : splitOnChar sep l = [l] := by
  induction l with
  | nil => simp [splitOnChar]
  | cons c cs ih =>
    have hc : ¬ c = sep := fun hcc => h (hcc ▸ List.mem_cons_self c cs)
    have hcs : sep ∉ cs := fun hm => h (List.mem_cons_of_mem c hm)
    rw [splitOnChar, if_neg hc, ih hcs]

/-- Groups produced by the split do not contain the separator. -/
theorem not_mem_of_mem_splitOnChar (sep : Char) (l g : List Char)
    (hg : g ∈ splitOnChar sep l) : sep ∉ g := by
  induction l generalizing g with
  | nil =>
    simp only [splitOnChar, List.mem_singleton] at hg
    subst hg; simp
  | cons c cs ih =>
    by_cases h : c = sep
    · subst h
      rw [splitOnChar, if_pos rfl] at hg
      rcases List.mem_cons.mp hg with rfl | hg'
      · simp
      · exact ih g hg'
    · rw [splitOnChar, if_neg h] at hg
      cases hcs : splitOnChar sep cs with
      | nil => exact absurd hcs (splitOnChar_ne_nil sep cs)
      | cons g0 gs =>
        rw [hcs] at hg
        rcases List.mem_cons.mp hg with rfl | hg'
        · intro hmem
          rcases List.mem_cons.mp hmem with hsc | hmem'
          · exact h hsc.symm
          · exact ih g0 (hcs ▸ List.mem_cons_self g0 gs) hmem'
        · exact ih g (hcs ▸ List.mem_cons_of_mem g0 hg')

/-- Normalisation drops an empty or `.` segment. -/
theorem normSegs_cons_skip (acc : List String) (seg : String) (rest : List String)
    (h1 : seg = "" ∨ seg = ".") :
    normSegs acc (seg :: rest) = normSegs acc rest := by
  rw [normSegs, if_pos h1]

/-- Normalisation pops the previous segment at `..`. -/
theorem normSegs_cons_pop (acc : List String) (rest : List String) :
    normSegs acc (".." :: rest) = normSegs acc.tail rest := by
  rw [normSegs, if_neg (by simp), if_pos rfl]

/-- Normalisation keeps a plain segment. -/
theorem normSegs_cons_push (acc : List String) (seg : String) (rest : List String)
    (h1 : ¬ (seg = "" ∨ seg = ".")) (h2 : ¬ seg = "..") :
    normSegs acc (seg :: rest) = normSegs (seg :: acc) rest := by
  rw [normSegs, if_neg h1, if_neg h2]

/-- Every segment the normalisation emits comes from the accumulator or
from the input. -/
theorem mem_normSegs (l : List String) :
    ∀ (acc : List String) (s : String), s ∈ normSegs acc l →
      s ∈ acc ∨ s ∈ l := by
  induction l with
  | nil =>
    intro acc s hs
    rw [normSegs] at hs
    exact Or.inl (List.mem_reverse.mp hs)
  | cons seg rest ih =>
    intro acc s hs
    rw [normSegs] at hs
    by_cases h1 : seg = "" ∨ seg = "."
    · rw [if_pos h1] at hs
      rcases ih acc s hs with h | h
      · exact Or.inl h
      · exact Or.inr (List.mem_cons_of_mem seg h)
    · rw [if_neg h1] at hs
      by_cases h2 : seg = ".."
      · rw [if_pos h2] at hs
        rcases ih acc.tail s hs with h | h
        · exact Or.inl (List.tail_subset acc h)
        · exact Or.inr (List.mem_cons_of_mem seg h)
      · rw [if_neg h2] at hs
        rcases ih (seg :: acc) s hs with h | h
        · rcases List.mem_cons.mp h with rfl | h'
          · exact Or.inr (List.mem_cons_self s rest)
          · exact Or.inl h'
        · exact Or.inr (List.mem_cons_of_mem seg h)

/-- Normalisation processes the input left to right: a split input is
processed in two stages. -/
theorem normSegs_append (l₁ : List String) :
    ∀ (acc : List String) (l₂ : List String),
      normSegs acc (l₁ ++ l₂) = normSegs ((normSegs acc l₁).reverse) l₂ := by
  induction l₁ with
  | nil => intro acc l₂; simp [normSegs]
  | cons seg rest ih =>
    intro acc l₂
    rw [List.cons_append]
    by_cases h1 : seg = "" ∨ seg = "."
    · rw [normSegs_cons_skip acc seg _ h1, normSegs_cons_skip acc seg rest h1]
      exact ih acc l₂
    · by_cases h2 : seg = ".."
      · subst h2
        rw [normSegs_cons_pop acc _, normSegs_cons_pop acc rest]
        exact ih acc.tail l₂
      · rw [normSegs_cons_push acc seg _ h1 h2, normSegs_cons_push acc seg rest h1 h2]
        exact ih (seg :: acc) l₂

/-- A final plain segment survives normalisation as the last segment. -/
theorem normSegs_snoc (acc l : List String) (s : String)
    (h1 : ¬ (s = "" ∨ s = ".")) (h2 : ¬ s = "..") :
    normSegs acc (l ++ [s]) = normSegs acc l ++ [s] := by
  rw [normSegs_append]
  rw [normSegs, if_neg h1, if_neg h2, normSegs]
  simp

/-- Character list of a packed string. -/
theorem toList_mk (l : List Char) : (String.mk l).toList = l := rfl

/-- Splitting the separator-joined rendering of separator-free segments
recovers the segments. -/
theorem splitOnChar_joinSegs (l : List String)
    (h : ∀ s ∈ l, ('/' : Char) ∉ s.toList) (hl : l ≠ []) :
    splitOnChar '/' (joinSegs l).toList = l.map String.toList := by
  induction l with
  | nil => exact absurd rfl hl
  | cons s rest ih =>
    cases rest with
    | nil =>
      show splitOnChar '/' (joinSegs [s]).toList = [s].map String.toList
      rw [show joinSegs [s] = s from rfl,
        splitOnChar_of_not_mem '/' s.toList (h s (List.mem_cons_self s []))]
      rfl
    | cons t rest' =>
      have hjoin : joinSegs (s :: t :: rest') = s ++ "/" ++ joinSegs (t :: rest') := rfl
      have hchars : (s ++ "/" ++ joinSegs (t :: rest')).toList
          = s.toList ++ '/' :: (joinSegs (t :: rest')).toList := by
        simp [String.toList, String.data_append]
      rw [hjoin, hchars, splitOnChar_append,
        splitOnChar_of_not_mem '/' s.toList (h s (List.mem_cons_self s _)),
        ih (fun u hu => h u (List.mem_cons_of_mem s hu)) (by simp)]
      rfl

/-- The final path component of a rendered absolute path whose segments
are separator-free is the last segment. -/
theorem basenameChars_renderAbs (segs : List String) (s : String)
    (h : ∀ u ∈ segs, ('/' : Char) ∉ u.toList) (hs : ('/' : Char) ∉ s.toList) :
    basenameChars (renderAbs (segs ++ [s])) = s.toList := by
  unfold basenameChars renderAbs
  have hchars : ("/" ++ joinSegs (segs ++ [s])).toList
      = '/' :: (joinSegs (segs ++ [s])).toList := by
    simp [String.toList, String.data_append]
  rw [hchars, show splitOnChar '/' ('/' :: (joinSegs (segs ++ [s])).toList)
      = [] :: splitOnChar '/' (joinSegs (segs ++ [s])).toList from by
        rw [splitOnChar, if_pos rfl]]
  rw [splitOnChar_joinSegs (segs ++ [s])
    (by
      intro u hu
      rcases List.mem_append.mp hu with h1 | h1
      · exact h u h1
      · rw [List.mem_singleton.mp h1]; exact hs)
    (by simp)]
  rw [List.map_append]
  rw [show ([] : List Char) :: (segs.map String.toList ++ [s].map String.toList)
      = (([] : List Char) :: segs.map String.toList) ++ [s.toList] from rfl]
  exact List.getLastD_concat _ _ _

/-- The SPA fallback path `path.join(rootPath, 'index.html')` always has
extension `.html`, whatever the root path is. -/
theorem extname_pathJoin_indexHtml (rootPath : String) :
    extname (pathJoin rootPath "index.html") = ".html" := by
  unfold pathJoin
  rw [show splitSegs "index.html" = ["index.html"] from by decide]
  rw [normSegs_snoc [] (splitSegs rootPath) "index.html" (by decide) (by decide)]
  unfold extname
  rw [basenameChars_renderAbs (normSegs [] (splitSegs rootPath)) "index.html"
    (by
      intro u hu
      rcases mem_normSegs (splitSegs rootPath) [] u hu with h1 | h1
      · exact absurd h1 (List.not_mem_nil u)
      · obtain ⟨g, hg, rfl⟩ := List.mem_map.mp h1
        rw [toList_mk]
        exact not_mem_of_mem_splitOnChar '/' rootPath.toList g hg)
    (by decide)]
  decide

/-! Claim theorems. -/

/-- C1: refuted on the code (code bug).  The containment check of
`handleRequest` is a string prefix test on the resolved path, so a `..`
request which resolves outside the root but onto a sibling whose name
extends the root string passes the check: with root `/a/b`, requesting
`/../bc` resolves to `/a/bc` — an absolute path not contained in the
root — yet the responder reads and serves the file stored there with
status 200 instead of responding 403. -/
theorem c1_escaping_path_is_served :
    pathJoin "/a/b" "/../bc" = "/a/bc"
    ∧ strStartsWith "/a/bc" "/a/b" = true
    ∧ handleRequest "/a/b" "index.html" 5500 [("/a/bc", "secret")] "/../bc"
        = ⟨200, "application/octet-stream", "secret"⟩ := by decide

/-- C2 counterexample: on a session whose entry file is `main.html`,
present at the root, requesting a non-existent path is answered 404 —
the fallback the code tries is the literal `index.html`, not the
session's entry file, contradicting the claim that the entry file is
served as fallback whenever it exists. -/
theorem c2_counterexample_entry_file_not_used :
    existsSync [("/r/main.html", "X")] (pathJoin "/r" "main.html") = true
    ∧ handleRequest "/r" "main.html" 5500 [("/r/main.html", "X")] "/nope"
        = ⟨404, "text/plain", "File not found"⟩ := by decide

/-- C2 (amended): for every request whose resolved path passes the
containment check but whose file does not exist, the responder falls
back to the file literally named `index.html` at the root — regardless
of the configured entry file — serving it with status 200, the HTML
content type and the bootstrap script inserted before its first closing
body tag; when no `index.html` exists at the root the response is 404. -/
theorem c2_fallback_is_literal_index_html (rootPath entryFile : String)
    (port : Nat) (fs : FS) (url : String)
    (hpre : strStartsWith (resolvedPath rootPath entryFile url) rootPath = true)
    (hne : existsSync fs (resolvedPath rootPath entryFile url) = false) :
    (∀ data : String, fsLookup fs (pathJoin rootPath "index.html") = some data →
       handleRequest rootPath entryFile port fs url
         = ⟨200, "text/html",
            replaceFirst data "</body>" (wsClientScript port ++ "</body>")⟩)
    ∧ (existsSync fs (pathJoin rootPath "index.html") = false →
       handleRequest rootPath entryFile port fs url
         = ⟨404, "text/plain", "File not found"⟩) := by
  constructor
  · intro data hread
    have hfb := existsSync_of_fsLookup fs _ data hread
    rw [handleRequest_eq_fallback rootPath entryFile port fs url hpre hne hfb]
    exact serveFile_html port _ fs data hread
      (by rw [extname_pathJoin_indexHtml]; decide)
  · intro hfb
    exact handleRequest_eq_notFound rootPath entryFile port fs url hpre hne hfb

/-- C2 witness: a session with entry file `main.html` and only
`index.html` on disk answers a request for a missing path with the
injected contents of `index.html`. -/
theorem c2_fallback_witness :
    handleRequest "/r" "main.html" 5500 [("/r/index.html", "<body></body>")] "/nope"
      = ⟨200, "text/html",
         replaceFirst "<body></body>" "</body>" (wsClientScript 5500 ++ "</body>")⟩ :=
  (c2_fallback_is_literal_index_html "/r" "main.html" 5500
      [("/r/index.html", "<body></body>")] "/nope" (by decide) (by decide)).1
    "<body></body>" (by decide)

set_option maxRecDepth 200000 in
/-- C3: refuted on the code (code bug).  `start` resolves with the port
the operating system actually bound, but the instance's `port` field is
never updated with it; the injected bootstrap script interpolates that
stale field, so for a session started with preferred port 0 and bound
to port 54321 the script's WebSocket URL references port 0, not the
session's actual bound port. -/
theorem c3_script_references_preferred_port :
    (start (mkServer "/r" 0 "index.html") (Except.ok 54321)).1 = Except.ok 54321
    ∧ (start (mkServer "/r" 0 "index.html") (Except.ok 54321)).2.port = 0
    ∧ containsSubstr (wsClientScript
        ((start (mkServer "/r" 0 "index.html") (Except.ok 54321)).2.port))
        "ws://localhost:0" = true
    ∧ containsSubstr (wsClientScript
        ((start (mkServer "/r" 0 "index.html") (Except.ok 54321)).2.port))
        "ws://localhost:54321" = false := by
  refine ⟨rfl, by decide, ?_, ?_⟩
  · decide
  · decide

/-- C4 counterexample: a served `.htm` file has determined content type
`text/html` — an HTML content type — yet is returned byte-for-byte
unmodified, with no bootstrap script inserted, because the code keys the
injection on the literal extension `.html`, not on the content type. -/
theorem c4_counterexample_htm_served_unmodified :
    mimeGetType "/r/p.htm" = some "text/html"
    ∧ handleRequest "/r" "index.html" 5500 [("/r/p.htm", "A</body>B")] "/p.htm"
        = ⟨200, "text/html", "A</body>B"⟩
    ∧ containsSubstr "A</body>B" "<script>" = false := by decide

/-- C4 (amended): for every file the responder serves, the injection is
keyed on the file's lower-cased extension being `.html` (not on the
determined content type): such files are returned with status 200, the
HTML content type, and the bootstrap script inserted before the first
closing body tag; every file with any other extension is returned
byte-for-byte unmodified with status 200 and its mime-derived content
type, even when that content type is HTML (e.g. `.htm`). -/
theorem c4_injection_keyed_on_html_extension (rootPath entryFile : String)
    (port : Nat) (fs : FS) (url data : String)
    (hpre : strStartsWith (resolvedPath rootPath entryFile url) rootPath = true)
    (hread : fsLookup fs (resolvedPath rootPath entryFile url) = some data) :
    (lowerStr (extname (resolvedPath rootPath entryFile url)) = ".html" →
      handleRequest rootPath entryFile port fs url
        = ⟨200, "text/html",
           replaceFirst data "</body>" (wsClientScript port ++ "</body>")⟩)
    ∧ (¬ lowerStr (extname (resolvedPath rootPath entryFile url)) = ".html" →
      handleRequest rootPath entryFile port fs url
        = ⟨200, (mimeGetType (resolvedPath rootPath entryFile url)).getD
              "application/octet-stream", data⟩) := by
  have hex := existsSync_of_fsLookup fs _ data hread
  constructor
  · intro hext
    rw [handleRequest_eq_serve rootPath entryFile port fs url hpre hex]
    exact serveFile_html port _ fs data hread hext
  · intro hext
    rw [handleRequest_eq_serve rootPath entryFile port fs url hpre hex]
    exact serveFile_other port _ fs data hread hext

/-- C4 witness: requesting `/` on a session whose entry file is an HTML
document returns 200 with the entry contents and the script inserted
before the closing body tag. -/
theorem c4_injection_witness :
    handleRequest "/r" "index.html" 6000
        [("/r/index.html", "<html><body>Hi</body></html>")] "/"
      = ⟨200, "text/html",
         replaceFirst "<html><body>Hi</body></html>" "</body>"
           (wsClientScript 6000 ++ "</body>")⟩ :=
  (c4_injection_keyed_on_html_extension "/r" "index.html" 6000
      [("/r/index.html", "<html><body>Hi</body></html>")] "/"
      "<html><body>Hi</body></html>" (by decide) (by decide)).1 (by decide)

/-- C5: refuted on the code (code bug).  Stopping a running session with
an open client connection empties the tracked connection set, but the
connection itself is never transitioned to closed: the code only calls
`wss.close()` — which does not terminate established connections — and
never closes or terminates any individual client, so after `stop` the
connection is still in the `OPEN` state. -/
theorem c5_stop_leaves_connections_open :
    (stop runningSession).1.clients = []
    ∧ (stop runningSession).2 = [freshOpenClient]
    ∧ freshOpenClient.readyState = ReadyState.OPEN := by decide

/-- C6: confirmed.  `broadcastReload` acts on each tracked connection
independently (the result at every index is the send-if-open step of the
entry at that index alone, so a delivery failure on one connection
cannot affect any other), each connection in the open state with a
working transport is handed exactly one reload signal, a failing open
connection records one failed attempt and nothing else, and every
connection not in the open state is skipped unchanged. -/
theorem c6_broadcast_isolated_per_connection (cs : List Client) (i : Nat) :
    (broadcastReload cs).length = cs.length
    ∧ (broadcastReload cs)[i]? = (cs[i]?).map sendReload
    ∧ (∀ c : Client, c.readyState = ReadyState.OPEN → c.sendErr = false →
        sendReload c = { c with sent := c.sent + 1 })
    ∧ (∀ c : Client, c.readyState = ReadyState.OPEN → c.sendErr = true →
        sendReload c = { c with errors := c.errors + 1 })
    ∧ (∀ c : Client, ¬ c.readyState = ReadyState.OPEN → sendReload c = c) := by
  refine ⟨by simp [broadcastReload], by simp [broadcastReload], ?_, ?_, ?_⟩
  · intro c h1 h2; simp [sendReload, h1, h2]
  · intro c h1 h2; simp [sendReload, h1, h2]
  · intro c h1; simp [sendReload, h1]

/-- C6 witness: a broadcast over one healthy open connection, one open
connection with a failing transport and one closed connection delivers
one signal to the healthy one, records one error on the failing one and
leaves the closed one untouched. -/
theorem c6_broadcast_witness :
    (broadcastReload [freshOpenClient, ⟨ReadyState.OPEN, 0, true, 0⟩,
        ⟨ReadyState.CLOSED, 0, false, 0⟩]).length
      = [freshOpenClient, ⟨ReadyState.OPEN, 0, true, 0⟩,
        (⟨ReadyState.CLOSED, 0, false, 0⟩ : Client)].length
    ∧ (broadcastReload [freshOpenClient, ⟨ReadyState.OPEN, 0, true, 0⟩,
        ⟨ReadyState.CLOSED, 0, false, 0⟩])[1]?
      = ([freshOpenClient, ⟨ReadyState.OPEN, 0, true, 0⟩,
        (⟨ReadyState.CLOSED, 0, false, 0⟩ : Client)][1]?).map sendReload
    ∧ (∀ c : Client, c.readyState = ReadyState.OPEN → c.sendErr = false →
        sendReload c = { c with sent := c.sent + 1 })
    ∧ (∀ c : Client, c.readyState = ReadyState.OPEN → c.sendErr = true →
        sendReload c = { c with errors := c.errors + 1 })
    ∧ (∀ c : Client, ¬ c.readyState = ReadyState.OPEN → sendReload c = c) :=
  c6_broadcast_isolated_per_connection
    [freshOpenClient, ⟨ReadyState.OPEN, 0, true, 0⟩,
      ⟨ReadyState.CLOSED, 0, false, 0⟩] 1

/-- C7: refuted on the code (code bug).  When the listen step of `start`
fails (e.g. a bind conflict), the returned promise rejects, but the
already-created HTTP server, WebSocket server and — most importantly —
the already-started file watcher are left allocated and running: the
code attempts no cleanup on this path (its catch clause only logs and
rethrows), contradicting the claim that no partially-initialized
watcher or listener is left running. -/
theorem c7_failed_start_leaks_watcher :
    (start (mkServer "/r" 5500 "index.html") (Except.error "EADDRINUSE")).1
      = Except.error (StartError.listenError "EADDRINUSE")
    ∧ (start (mkServer "/r" 5500 "index.html") (Except.error "EADDRINUSE")).2.watcher
      = true
    ∧ (start (mkServer "/r" 5500 "index.html") (Except.error "EADDRINUSE")).2.server
      = true
    ∧ (start (mkServer "/r" 5500 "index.html") (Except.error "EADDRINUSE")).2.wss
      = true
    ∧ (start (mkServer "/r" 5500 "index.html") (Except.error "EADDRINUSE")).2.isRunning
      = false := by
  exact ⟨rfl, by decide, by decide, by decide, by decide⟩

/-- C8 counterexample: a session in the Starting phase — resources
created by a first `start` whose `listen` callback has not yet run, so
the running flag is still false — is not rejected: a second `start`
proceeds and resolves instead of failing with AlreadyRunning. -/
theorem c8_counterexample_starting_not_guarded :
    startingSession.server = true
    ∧ startingSession.isRunning = false
    ∧ (start startingSession (Except.ok 5500)).1 = Except.ok 5500 := by
  exact ⟨by decide, by decide, rfl⟩

/-- C8 (amended): invoking `start` on a session whose running flag is
set — i.e. in the Running state — fails with the AlreadyRunning error
and changes nothing; the guard checks only this flag, so a start
invoked during the Starting phase of another start is not rejected. -/
theorem c8_start_rejected_while_running (s : ServerState)
    (r : Except String Nat) (h : s.isRunning = true) :
    start s r = (Except.error StartError.alreadyRunning, s) := by
  simp [start, h]

/-- C8 witness: starting the running demo session is rejected. -/
theorem c8_start_rejected_witness :
    start runningSession (Except.ok 5500)
      = (Except.error StartError.alreadyRunning, runningSession) :=
  c8_start_rejected_while_running runningSession (Except.ok 5500) (by decide)

/-- C9: confirmed.  `stop` on a session that is not running is a no-op
returning without error; after any `stop` the running flag is false, and
a second `stop` is again a no-op that produces no error and leaves the
state exactly as the first left it — Idle both times.  (The embedding of
`stop` is total: the close calls it makes do not throw in normal
operation, so no error is produced.) -/
theorem c9_stop_noop_and_idempotent (s : ServerState) :
    (s.isRunning = false → stop s = (s, s.clients))
    ∧ (stop s).1.isRunning = false
    ∧ stop (stop s).1 = ((stop s).1, (stop s).1.clients)
    ∧ (stop (stop s).1).1 = (stop s).1 := by
  by_cases h : s.isRunning = true
  · simp [stop, h]
  · have h' : s.isRunning = false := by simpa using h
    simp [stop, h']

/-- C9 witness: stopping the running demo session twice errors neither
time and leaves the state not running both times. -/
theorem c9_stop_witness :
    (runningSession.isRunning = false →
      stop runningSession = (runningSession, runningSession.clients))
    ∧ (stop runningSession).1.isRunning = false
    ∧ stop (stop runningSession).1
        = ((stop runningSession).1, (stop runningSession).1.clients)
    ∧ (stop (stop runningSession).1).1 = (stop runningSession).1 :=
  c9_stop_noop_and_idempotent runningSession

/-- C10: confirmed.  For a served `.html` file whose content has no
`</body>` substring the responder still answers 200 with the content
unchanged (hence without any inserted bootstrap script); when the
content decomposes around `</body>` at all, the script is inserted at
exactly one occurrence, namely the first (the decomposition below has
the shortest possible prefix), with everything after it — including any
further `</body>` occurrences — byte-for-byte intact. -/
theorem c10_injection_at_first_body_tag_only (rootPath entryFile : String)
    (port : Nat) (fs : FS) (url data : String)
    (hpre : strStartsWith (resolvedPath rootPath entryFile url) rootPath = true)
    (hread : fsLookup fs (resolvedPath rootPath entryFile url) = some data)
    (hext : lowerStr (extname (resolvedPath rootPath entryFile url)) = ".html") :
    ((∀ pre post : List Char, data.toList ≠ pre ++ "</body>".toList ++ post) →
      handleRequest rootPath entryFile port fs url = ⟨200, "text/html", data⟩)
    ∧ ((∃ pre post : List Char, data.toList = pre ++ "</body>".toList ++ post) →
      ∃ pre post : List Char,
        data.toList = pre ++ "</body>".toList ++ post
        ∧ (∀ pre' post' : List Char,
            data.toList = pre' ++ "</body>".toList ++ post' →
            pre.length ≤ pre'.length)
        ∧ (handleRequest rootPath entryFile port fs url).body.toList
            = pre ++ (wsClientScript port).toList ++ "</body>".toList ++ post) := by
  have hex := existsSync_of_fsLookup fs _ data hread
  have hserve : handleRequest rootPath entryFile port fs url
      = ⟨200, "text/html",
         replaceFirst data "</body>" (wsClientScript port ++ "</body>")⟩ := by
    rw [handleRequest_eq_serve rootPath entryFile port fs url hpre hex]
    exact serveFile_html port _ fs data hread hext
  constructor
  · intro hno
    rw [hserve]
    unfold replaceFirst
    cases hsp : splitFirst "</body>".toList data.toList with
    | none => rfl
    | some pq =>
      obtain ⟨pre, post⟩ := pq
      exact absurd (splitFirst_some _ _ _ _ hsp).1 (hno pre post)
  · rintro ⟨pre0, post0, hdec0⟩
    cases hsp : splitFirst "</body>".toList data.toList with
    | none => exact absurd hdec0 (splitFirst_none _ _ hsp pre0 post0)
    | some pq =>
      obtain ⟨pre, post⟩ := pq
      obtain ⟨hdec, hmin⟩ := splitFirst_some _ _ _ _ hsp
      refine ⟨pre, post, hdec, hmin, ?_⟩
      rw [hserve]
      show (replaceFirst data "</body>" (wsClientScript port ++ "</body>")).toList
        = pre ++ (wsClientScript port).toList ++ "</body>".toList ++ post
      unfold replaceFirst
      rw [hsp, toList_mk]
      simp [String.toList, String.data_append, List.append_assoc]

/-- C10 witness: an HTML file with no closing body tag is served
unchanged. -/
theorem c10_no_body_tag_witness :
    handleRequest "/r" "index.html" 5500 [("/r/a.html", "<p>Hi</p>")] "/a.html"
      = ⟨200, "text/html", "<p>Hi</p>"⟩ :=
  (c10_injection_at_first_body_tag_only "/r" "index.html" 5500
      [("/r/a.html", "<p>Hi</p>")] "/a.html" "<p>Hi</p>"
      (by decide) (by decide) (by decide)).1
    (splitFirst_none _ _ (by decide))

end RealTime
